import Mathlib

/-
Verification of the session lifecycle and insertion-lock coordinator of the
Waste-for-WiFi captive portal (source files `db.py` and `app.py`).

The SQLite store is embedded shallowly: a `Store` carries the `sessions` and
`bottle_logs` tables as lists of rows plus the AUTOINCREMENT counter.  Each
database helper of `db.py` and each route handler of `app.py` that the claims
mention is translated into a pure function on `Store`.  SQLite serializes
writers (`BEGIN IMMEDIATE` plus a single write lock), so every transaction is
modelled as one atomic state transition; concurrent histories are the
interleavings generated by the `Reachable` relation below.  The partial unique
index `idx_single_inserting` is modelled by `indexOK`: a write whose result
would hold two `inserting` rows raises `IntegrityError` and leaves the table
unchanged, exactly as the SQL layer does.
-/

set_option linter.unusedVariables false

namespace WasteForWiFi

/-- Session status values (`db.py`, `ALL_SESSION_STATUSES`). -/
inductive Status where
  | awaiting_insertion
  | inserting
  | active
  | expired
deriving DecidableEq, Repr

/-- One row of the `sessions` table (`db.py`, `_create_tables`).  Timestamps
are Unix seconds; nullable columns are `Option`. -/
structure Session where
  id : Nat
  mac_address : Option String
  ip_address : Option String
  bottles_inserted : Nat
  seconds_earned : Nat
  session_start : Option Nat
  session_end : Option Nat
  status : Status
  created_at : Nat
  updated_at : Nat
deriving DecidableEq, Repr

/-- One row of the append-only `bottle_logs` table. -/
structure BottleLog where
  session_id : Nat
  count : Nat
  created_at : Nat
deriving DecidableEq, Repr

/-- The persistent store: both tables plus the AUTOINCREMENT counter that
yields the next session id (ids start at 1 and are never reused). -/
structure Store where
  sessions : List Session
  bottle_logs : List BottleLog
  next_id : Nat
deriving DecidableEq, Repr

/-- `db.SECONDS_PER_BOTTLE` (2 minutes per bottle). -/
def SECONDS_PER_BOTTLE : Nat := 120

/-- Number of rows of a session list holding `status = 'inserting'`. -/
def countInserting (l : List Session) : Nat :=
  (l.filter (fun s => s.status == Status.inserting)).length

/-- Number of sessions of the store holding the machine-wide lock. -/
def insertingCount (st : Store) : Nat := countInserting st.sessions

/-- The conditional unique index `idx_single_inserting` (`db.py` lines 77-81):
a write is accepted only if afterwards at most one row has
`status = 'inserting'`; otherwise SQLite raises `IntegrityError` and the
statement has no effect. -/
def indexOK (l : List Session) : Bool := decide (countInserting l ≤ 1)

/-- `db.get_session`: `SELECT * FROM sessions WHERE id = ?` (first match). -/
def get_session (st : Store) (sid : Nat) : Option Session :=
  st.sessions.find? (fun s => s.id == sid)

/-- The row transformer of
`UPDATE sessions SET status = ?, updated_at = ? WHERE id = ?`. -/
def setStatusRow (now sid : Nat) (x : Status) (s : Session) : Session :=
  if s.id == sid then { s with status := x, updated_at := now } else s

/-- `db.update_session_status`: writes only `status` and `updated_at` of the
targeted row, guarded by the unique index. -/
def update_session_status (st : Store) (now sid : Nat) (x : Status) : Store :=
  let l := st.sessions.map (setStatusRow now sid x)
  if indexOK l then { st with sessions := l } else st

/-- `db.start_session`: activates a session, setting
`session_start = now`, `session_end = now + seconds_earned`,
`status = 'active'`, `updated_at = now`.  Returns `false` when the id is
unknown. -/
def start_session (st : Store) (now sid : Nat) : Bool × Store :=
  match get_session st sid with
  | none => (false, st)
  | some s =>
    (true, { st with sessions := st.sessions.map (fun r =>
        if r.id == sid then
          { r with status := Status.active, session_start := some now,
                   session_end := some (now + s.seconds_earned), updated_at := now }
        else r) })

/-- `db.update_session` as invoked by the `/api/bottle` route: overwrites
`bottles_inserted`, `seconds_earned` and `session_end` of the targeted row
(the helper sets exactly the keys of the `updates` dict; `updated_at` is not
among them). -/
def update_session_credit (st : Store) (sid b sec e : Nat) : Store :=
  { st with sessions := st.sessions.map (fun r =>
      if r.id == sid then
        { r with bottles_inserted := b, seconds_earned := sec, session_end := some e }
      else r) }

/-- `db.log_bottles`: appends one `bottle_logs` row carrying the bulk count. -/
def log_bottles (st : Store) (now sid count : Nat) : Store :=
  { st with bottle_logs := st.bottle_logs ++ [{ session_id := sid, count := count, created_at := now }] }

/-- Python truthiness of the `session_end` column (`None` and `0` are falsy),
used by `insert_bottle`'s `session_end or current_time`. -/
def truthyEnd : Option Nat → Bool
  | none => false
  | some v => v != 0

/-- The new `session_end` computed by the `/api/bottle` route (`app.py` lines
237-247): if the status is `active`, or `inserting` with a truthy
`session_end`, the new end is `(session_end or now) + count * SECONDS_PER_BOTTLE`;
otherwise it is `now + count * SECONDS_PER_BOTTLE`. -/
def credit_new_end (s : Session) (now cnt : Nat) : Nat :=
  if s.status == Status.active || (s.status == Status.inserting && truthyEnd s.session_end) then
    (match s.session_end with
     | some v => if v != 0 then v else now
     | none => now) + cnt * SECONDS_PER_BOTTLE
  else
    now + cnt * SECONDS_PER_BOTTLE

/-- Typed failure results of the `/api/bottle` route, following the spec's
taxonomy: HTTP 400 (non-positive count) is `validationError`, 404 is
`notFound`, 409 ("Session not accepting bottles") is `invalidState`. -/
inductive CreditError where
  | validationError
  | notFound
  | invalidState
deriving DecidableEq, Repr

/-- The success payload returned by the `/api/bottle` route. -/
structure CreditOk where
  session_id : Nat
  bottles_inserted : Nat
  seconds_earned : Nat
  remaining_seconds : Nat
deriving DecidableEq, Repr

/-- Result of the `/api/bottle` route. -/
inductive CreditResult where
  | ok (r : CreditOk)
  | error (e : CreditError)
deriving DecidableEq, Repr

/-- The `insert_bottle` route handler (`app.py` lines 207-271), i.e. the
spec's `credit(session_id, count)`.  The `count` arrives from JSON and may be
non-positive (rejected). -/
def insert_bottle (st : Store) (now sid : Nat) (count : Int) : CreditResult × Store :=
  if count ≤ 0 then (CreditResult.error CreditError.validationError, st)
  else
    match get_session st sid with
    | none => (CreditResult.error CreditError.notFound, st)
    | some s =>
      if s.status == Status.inserting || s.status == Status.active then
        let cnt := count.toNat
        let newBottles := s.bottles_inserted + cnt
        let newSeconds := s.seconds_earned + cnt * SECONDS_PER_BOTTLE
        let newEnd := credit_new_end s now cnt
        let st1 := update_session_credit st sid newBottles newSeconds newEnd
        let st2 := log_bottles st1 now sid cnt
        (CreditResult.ok { session_id := sid, bottles_inserted := newBottles,
                           seconds_earned := newSeconds,
                           remaining_seconds := if now < newEnd then newEnd - now else 0 }, st2)
      else (CreditResult.error CreditError.invalidState, st)

/-- The sequence of durably committed store states produced by one
`insert_bottle` call.  The route first commits `db.update_session` (counter
update) and then, in a separate transaction, commits `db.log_bottles`; each
`db.commit()` of the source is one entry here.  A failed call commits
nothing. -/
def insert_bottle_commits (st : Store) (now sid : Nat) (count : Int) : List Store :=
  if count ≤ 0 then []
  else
    match get_session st sid with
    | none => []
    | some s =>
      if s.status == Status.inserting || s.status == Status.active then
        let cnt := count.toNat
        let st1 := update_session_credit st sid (s.bottles_inserted + cnt)
                     (s.seconds_earned + cnt * SECONDS_PER_BOTTLE) (credit_new_end s now cnt)
        [st1, log_bottles st1 now sid cnt]
      else []

/-- Result of the `/api/session/<id>/activate` route. -/
inductive ActivateResult where
  | notFound
  | invalidState
  | ok
deriving DecidableEq, Repr

/-- The `activate_session` route handler (`app.py` lines 274-284): 404 when
the id is unknown, 400 (`InvalidState`) when `bottles_inserted = 0`, otherwise
`db.start_session` runs unconditionally. -/
def activate_session (st : Store) (now sid : Nat) : ActivateResult × Store :=
  match get_session st sid with
  | none => (ActivateResult.notFound, st)
  | some s =>
    if s.bottles_inserted == 0 then (ActivateResult.invalidState, st)
    else (ActivateResult.ok, (start_session st now sid).2)

/-- `ORDER BY created_at DESC LIMIT 1` over a row list: the row with the
largest `created_at` (on equal keys the earlier row of the scan is kept). -/
def newestByCreated : List Session → Option Session
  | [] => none
  | s :: rest =>
    match newestByCreated rest with
    | none => some s
    | some t => if s.created_at < t.created_at then some t else some s

/-- `ORDER BY updated_at DESC, created_at DESC LIMIT 1` over a row list. -/
def newestByUpdated : List Session → Option Session
  | [] => none
  | s :: rest =>
    match newestByUpdated rest with
    | none => some s
    | some t =>
      if s.updated_at < t.updated_at ∨
         (s.updated_at = t.updated_at ∧ s.created_at < t.created_at) then some t
      else some s

/-- The device ownership predicate of `acquire_insertion_lock`: the source
filters on the MAC column when a MAC is given, else on the IP column. -/
def deviceMatch (mac ip : Option String) (s : Session) : Bool :=
  match mac with
  | some m => s.mac_address == some m
  | none =>
    match ip with
    | some i => s.ip_address == some i
    | none => false

/-- `status IN ('awaiting_insertion', 'active', 'inserting')`. -/
def nonTerminal (s : Session) : Bool :=
  s.status == Status.awaiting_insertion || s.status == Status.active ||
    s.status == Status.inserting

/-- The device-row query of `acquire_insertion_lock` (`db.py` lines 567-596):
this device's most recent non-terminal session, newest `created_at` first. -/
def deviceRow (st : Store) (mac ip : Option String) : Option Session :=
  newestByCreated ((st.sessions.filter (deviceMatch mac ip)).filter nonTerminal)

/-- The upgrade step of `acquire_insertion_lock`: `UPDATE sessions SET
status = 'inserting', updated_at = ? WHERE id = ?`.  When the unique index
rejects the write the `IntegrityError` handler returns `None` (busy). -/
def acquire_upgrade (st : Store) (now sid : Nat) : Option Nat × Store :=
  let l := st.sessions.map (setStatusRow now sid Status.inserting)
  if indexOK l then (some sid, { st with sessions := l }) else (none, st)

/-- The row inserted by the create branch of `acquire_insertion_lock`. -/
def newSessionRow (sid : Nat) (mac ip : Option String) (now : Nat) : Session :=
  { id := sid, mac_address := mac, ip_address := ip, bottles_inserted := 0,
    seconds_earned := 0, session_start := none, session_end := none,
    status := Status.inserting, created_at := now, updated_at := now }

/-- `SELECT id FROM sessions WHERE status = 'inserting' LIMIT 1`: any session
currently holding the machine-wide lock (`existing_inserting` in the
source). -/
def firstInserting (st : Store) : Option Session :=
  st.sessions.find? (fun s => s.status == Status.inserting)

/-- `db.acquire_insertion_lock` (`db.py` lines 525-661), the spec's
`acquire(device_key, origin_address)`.  Returns the session id on success or
`none` for the `Busy` condition.  The whole body runs under
`BEGIN IMMEDIATE`, hence as one atomic transition. -/
def acquire_insertion_lock (st : Store) (now : Nat) (mac ip : Option String) :
    Option Nat × Store :=
  match deviceRow st mac ip with
  | some s =>
    if s.status == Status.inserting then (some s.id, st)
    else
      match firstInserting st with
      | some t =>
        if t.id == s.id then acquire_upgrade st now s.id else (none, st)
      | none => acquire_upgrade st now s.id
  | none =>
    match firstInserting st with
    | some _ => (none, st)
    | none =>
      (some st.next_id,
       { st with sessions := st.sessions ++ [newSessionRow st.next_id mac ip now],
                 next_id := st.next_id + 1 })

/-- `db.get_session_for_device` on its working call pattern (both a MAC and an
IP plus a status filter, as every live caller passes them): the most recently
updated session matching the MAC **or** the IP whose status is in the
filter. -/
def get_session_for_device (st : Store) (mac ip : String) (statuses : List Status) :
    Option Session :=
  newestByUpdated (st.sessions.filter (fun s =>
    (s.mac_address == some mac || s.ip_address == some ip) && statuses.contains s.status))

/-- The `/api/session/unlock` route handler (`app.py` lines 333-373), the
spec's `release`: find the device's `inserting` session; with bottles go to
`active`, without bottles go back to `awaiting_insertion`, otherwise do
nothing.  The route always reports success. -/
def unlock_insertion (st : Store) (now : Nat) (mac ip : String) : Store :=
  match get_session_for_device st mac ip [Status.inserting] with
  | none => st
  | some s =>
    if 0 < s.bottles_inserted then update_session_status st now s.id Status.active
    else update_session_status st now s.id Status.awaiting_insertion

/-- `db.create_session` (used by the captive-portal detection path): inserts a
fresh row with zero counters in the given status; an insert rejected by the
unique index raises and creates nothing. -/
def create_session (st : Store) (now : Nat) (mac ip : Option String) (x : Status) :
    Option Nat × Store :=
  let ns : Session :=
    { id := st.next_id, mac_address := mac, ip_address := ip, bottles_inserted := 0,
      seconds_earned := 0, session_start := none, session_end := none,
      status := x, created_at := now, updated_at := now }
  let l := st.sessions ++ [ns]
  if indexOK l then (some st.next_id, { st with sessions := l, next_id := st.next_id + 1 })
  else (none, st)

/-- `db.expire_stale_awaiting_sessions`: sweep pass 1.  Returns the affected
row count and the new store. -/
def expire_stale_awaiting_sessions (st : Store) (now maxAge : Nat) : Nat × Store :=
  let p := fun s => s.status == Status.awaiting_insertion && s.created_at < now - maxAge
  ((st.sessions.filter p).length,
   { st with sessions := st.sessions.map (fun s =>
       if p s then { s with status := Status.expired, updated_at := now } else s) })

/-- `db.expire_stale_inserting_sessions`: sweep pass 2 (lock-hold timeout). -/
def expire_stale_inserting_sessions (st : Store) (now maxAge : Nat) : Nat × Store :=
  let p := fun s => s.status == Status.inserting && s.updated_at < now - maxAge
  ((st.sessions.filter p).length,
   { st with sessions := st.sessions.map (fun s =>
       if p s then { s with status := Status.expired, updated_at := now } else s) })

/-- `db.expire_finished_active_sessions`: sweep pass 3 (`session_end ≤ now`). -/
def expire_finished_active_sessions (st : Store) (now : Nat) : Nat × Store :=
  let p := fun s => s.status == Status.active &&
    (match s.session_end with | some e => e ≤ now | none => false)
  ((st.sessions.filter p).length,
   { st with sessions := st.sessions.map (fun s =>
       if p s then { s with status := Status.expired, updated_at := now } else s) })

/-- `db.add_bottle_to_session`: the single-bottle crediting helper (one
transaction covering both the counter update and the log row). -/
def add_bottle_to_session (st : Store) (now sid spb : Nat) : Store :=
  { st with
    sessions := st.sessions.map (fun r =>
      if r.id == sid then
        { r with bottles_inserted := r.bottles_inserted + 1,
                 seconds_earned := r.seconds_earned + spb, updated_at := now }
      else r),
    bottle_logs := st.bottle_logs ++ [{ session_id := sid, count := 1, created_at := now }] }

/-- `db.extend_session` (`db.py` lines 247-264), the database layer of the
sensor-driven `SessionManager.handle_bottle` path: adds `additional` to
`seconds_earned` and `session_end` of an `active` session without touching
`bottles_inserted`.  A `NULL` `session_end` raises a `TypeError` in the
source before any write; both failure shapes leave the store unchanged and
are reported as `false`. -/
def extend_session (st : Store) (now sid additional : Nat) : Bool × Store :=
  match get_session st sid with
  | none => (false, st)
  | some s =>
    if s.status == Status.active then
      match s.session_end with
      | none => (false, st)
      | some e =>
        (true, { st with sessions := st.sessions.map (fun r =>
            if r.id == sid then
              { r with session_end := some (e + additional),
                       seconds_earned := r.seconds_earned + additional, updated_at := now }
            else r) })
    else (false, st)

/-- Modelled from the spec: the case analysis of `acquire` exactly as §4.1
words it, used only as the refinement counterpart of
`acquire_insertion_lock` for claim C2.  Case 1: the device's `inserting`
session is returned.  Case 2: the device's most recently **updated**
`awaiting_insertion`/`active` session is transitioned when no other session
holds `inserting`.  Case 3: busy.  Case 4: a fresh session.  Only the
returned id is compared. -/
def acquire_spec (st : Store) (mac ip : Option String) : Option Nat :=
  let owned := st.sessions.filter (deviceMatch mac ip)
  match owned.find? (fun s => s.status == Status.inserting) with
  | some s => some s.id
  | none =>
    match newestByUpdated (owned.filter (fun s =>
        s.status == Status.awaiting_insertion || s.status == Status.active)) with
    | some s =>
      if st.sessions.any (fun t => t.status == Status.inserting && t.id != s.id) then none
      else some s.id
    | none =>
      if st.sessions.any (fun t => t.status == Status.inserting) then none
      else some st.next_id

/-- The empty store of a freshly initialised database. -/
def Store.empty : Store := { sessions := [], bottle_logs := [], next_id := 1 }

/-- Reachability of store states: interleavings of the application's atomic
transactions (every route handler and sweep pass, with arbitrary arguments
and clock values), starting from the empty database.  SQLite's single-writer
discipline makes every concurrent history one such interleaving. -/
inductive Reachable : Store → Prop where
  | empty : Reachable Store.empty
  | acquire (now : Nat) (mac ip : Option String) {st : Store} (h : Reachable st) :
      Reachable (acquire_insertion_lock st now mac ip).2
  | credit (now sid : Nat) (count : Int) {st : Store} (h : Reachable st) :
      Reachable (insert_bottle st now sid count).2
  | activate (now sid : Nat) {st : Store} (h : Reachable st) :
      Reachable (activate_session st now sid).2
  | setStatus (now sid : Nat) (x : Status) {st : Store} (h : Reachable st) :
      Reachable (update_session_status st now sid x)
  | release (now : Nat) (mac ip : String) {st : Store} (h : Reachable st) :
      Reachable (unlock_insertion st now mac ip)
  | create (now : Nat) (mac ip : Option String) (x : Status) {st : Store} (h : Reachable st) :
      Reachable (create_session st now mac ip x).2
  | sweepAwaiting (now maxAge : Nat) {st : Store} (h : Reachable st) :
      Reachable (expire_stale_awaiting_sessions st now maxAge).2
  | sweepInserting (now maxAge : Nat) {st : Store} (h : Reachable st) :
      Reachable (expire_stale_inserting_sessions st now maxAge).2
  | sweepActive (now : Nat) {st : Store} (h : Reachable st) :
      Reachable (expire_finished_active_sessions st now).2
  | addBottle (now sid spb : Nat) {st : Store} (h : Reachable st) :
      Reachable (add_bottle_to_session st now sid spb)
  | extend (now sid additional : Nat) {st : Store} (h : Reachable st) :
      Reachable (extend_session st now sid additional).2

/-- Store states reachable through every mutation path except the legacy
sensor-driven `extend_session` (whose bulk crediting is what breaks the
`seconds_earned = bottles_inserted × SECONDS_PER_BOTTLE` derivation).
`add_bottle_to_session` is taken at its default rate `SECONDS_PER_BOTTLE`,
the rate every caller in the repository passes. -/
inductive CreditReachable : Store → Prop where
  | empty : CreditReachable Store.empty
  | acquire (now : Nat) (mac ip : Option String) {st : Store} (h : CreditReachable st) :
      CreditReachable (acquire_insertion_lock st now mac ip).2
  | credit (now sid : Nat) (count : Int) {st : Store} (h : CreditReachable st) :
      CreditReachable (insert_bottle st now sid count).2
  | activate (now sid : Nat) {st : Store} (h : CreditReachable st) :
      CreditReachable (activate_session st now sid).2
  | setStatus (now sid : Nat) (x : Status) {st : Store} (h : CreditReachable st) :
      CreditReachable (update_session_status st now sid x)
  | release (now : Nat) (mac ip : String) {st : Store} (h : CreditReachable st) :
      CreditReachable (unlock_insertion st now mac ip)
  | create (now : Nat) (mac ip : Option String) (x : Status) {st : Store} (h : CreditReachable st) :
      CreditReachable (create_session st now mac ip x).2
  | sweepAwaiting (now maxAge : Nat) {st : Store} (h : CreditReachable st) :
      CreditReachable (expire_stale_awaiting_sessions st now maxAge).2
  | sweepInserting (now maxAge : Nat) {st : Store} (h : CreditReachable st) :
      CreditReachable (expire_stale_inserting_sessions st now maxAge).2
  | sweepActive (now : Nat) {st : Store} (h : CreditReachable st) :
      CreditReachable (expire_finished_active_sessions st now).2
  | addBottle (now sid : Nat) {st : Store} (h : CreditReachable st) :
      CreditReachable (add_bottle_to_session st now sid SECONDS_PER_BOTTLE)

/-! ### Counting and lookup lemmas -/

theorem countInserting_nil : countInserting [] = 0 := rfl

theorem countInserting_cons (s : Session) (l : List Session) :
    countInserting (s :: l) =
      (if s.status = Status.inserting then 1 else 0) + countInserting l := by
  by_cases h : s.status = Status.inserting <;>
    simp [countInserting, List.filter_cons, h] <;> omega

theorem countInserting_append (l l' : List Session) :
    countInserting (l ++ l') = countInserting l + countInserting l' := by
  simp [countInserting, List.filter_append]

theorem countInserting_map_le (f : Session → Session)
    (hf : ∀ s, (f s).status = Status.inserting → s.status = Status.inserting)
    (l : List Session) : countInserting (l.map f) ≤ countInserting l := by
  induction l with
  | nil => simp [countInserting]
  | cons a t ih =>
    rw [List.map_cons, countInserting_cons, countInserting_cons]
    by_cases h : (f a).status = Status.inserting
    · simp only [h, hf a h, if_pos]; omega
    · simp only [h, if_neg, not_false_iff]; split <;> omega

theorem countInserting_map_eq (f : Session → Session)
    (hf : ∀ s, (f s).status = s.status)
    (l : List Session) : countInserting (l.map f) = countInserting l := by
  induction l with
  | nil => rfl
  | cons a t ih => rw [List.map_cons, countInserting_cons, countInserting_cons, hf, ih]

theorem countInserting_eq_zero_of_find?_none {l : List Session}
    (h : l.find? (fun s => s.status == Status.inserting) = none) :
    countInserting l = 0 := by
  rw [List.find?_eq_none] at h
  induction l with
  | nil => rfl
  | cons a t ih =>
    rw [countInserting_cons]
    have ha := h a (List.mem_cons_self a t)
    simp only [beq_iff_eq] at ha
    rw [if_neg ha, ih (fun x hx => h x (List.mem_cons_of_mem a hx))]

theorem find?_id_map (f : Session → Session) (hf : ∀ r, (f r).id = r.id)
    (l : List Session) (sid : Nat) :
    (l.map f).find? (fun r => r.id == sid) = (l.find? (fun r => r.id == sid)).map f := by
  induction l with
  | nil => rfl
  | cons a t ih =>
    rw [List.map_cons]
    by_cases h : a.id = sid
    · rw [List.find?_cons_of_pos _ (by simp [hf, h]),
        List.find?_cons_of_pos _ (by simp [h]), Option.map_some']
    · rw [List.find?_cons_of_neg _ (by simp [hf, h]),
        List.find?_cons_of_neg _ (by simp [h]), ih]

theorem newestByCreated_mem {l : List Session} {s : Session}
    (h : newestByCreated l = some s) : s ∈ l := by
  induction l with
  | nil => simp [newestByCreated] at h
  | cons a t ih =>
    simp only [newestByCreated] at h
    split at h
    · cases h; exact List.mem_cons_self _ _
    · rename_i u hu
      split at h
      · cases h; exact List.mem_cons_of_mem _ (ih hu)
      · cases h; exact List.mem_cons_self _ _

theorem newestByUpdated_mem {l : List Session} {s : Session}
    (h : newestByUpdated l = some s) : s ∈ l := by
  induction l with
  | nil => simp [newestByUpdated] at h
  | cons a t ih =>
    simp only [newestByUpdated] at h
    split at h
    · cases h; exact List.mem_cons_self _ _
    · rename_i u hu
      split at h
      · cases h; exact List.mem_cons_of_mem _ (ih hu)
      · cases h; exact List.mem_cons_self _ _

theorem mem_eq_of_nodup_ids {l : List Session} (h : (l.map Session.id).Nodup)
    {a b : Session} (ha : a ∈ l) (hb : b ∈ l) (hid : a.id = b.id) : a = b := by
  induction l with
  | nil => cases ha
  | cons x t ih =>
    rw [List.map_cons, List.nodup_cons] at h
    rcases List.mem_cons.mp ha with rfl | ha'
    · rcases List.mem_cons.mp hb with rfl | hb'
      · rfl
      · exact absurd (hid ▸ List.mem_map_of_mem Session.id hb') h.1
    · rcases List.mem_cons.mp hb with rfl | hb'
      · exact absurd (hid ▸ List.mem_map_of_mem Session.id ha') h.1
      · exact ih h.2 ha' hb'

theorem find?_id_of_mem {l : List Session} (h : (l.map Session.id).Nodup)
    {s : Session} (hmem : s ∈ l) :
    l.find? (fun r => r.id == s.id) = some s := by
  induction l with
  | nil => cases hmem
  | cons a t ih =>
    rw [List.map_cons, List.nodup_cons] at h
    rcases List.mem_cons.mp hmem with rfl | hmem'
    · exact List.find?_cons_of_pos _ (by simp)
    · have hne : ¬ a.id = s.id := by
        intro hc
        exact h.1 (hc ▸ List.mem_map_of_mem Session.id hmem')
      rw [List.find?_cons_of_neg _ (by simp [hne]), ih h.2 hmem']

theorem length_le_one_eq {α : Type} {l : List α} (h : l.length ≤ 1) {a b : α}
    (ha : a ∈ l) (hb : b ∈ l) : a = b := by
  match l with
  | [] => cases ha
  | [x] =>
    rw [List.mem_singleton] at ha hb
    rw [ha, hb]
  | x :: y :: t => simp at h

theorem inserting_unique {l : List Session} (h : countInserting l ≤ 1)
    {a b : Session} (ha : a ∈ l) (hb : b ∈ l)
    (hsa : a.status = Status.inserting) (hsb : b.status = Status.inserting) : a = b :=
  length_le_one_eq h
    (List.mem_filter.mpr ⟨ha, by simp [hsa]⟩)
    (List.mem_filter.mpr ⟨hb, by simp [hsb]⟩)

theorem filter_id_length_le_one {l : List Session} (h : (l.map Session.id).Nodup) (sid : Nat) :
    (l.filter (fun r => r.id == sid)).length ≤ 1 := by
  induction l with
  | nil => simp
  | cons a t ih =>
    rw [List.map_cons, List.nodup_cons] at h
    rw [List.filter_cons]
    by_cases ha : a.id = sid
    · have h0 : (t.filter (fun r => r.id == sid)).length = 0 := by
        rw [List.length_eq_zero, List.filter_eq_nil]
        intro x hx
        simp only [beq_iff_eq]
        intro hxid
        exact h.1 ((hxid.trans ha.symm) ▸ List.mem_map_of_mem Session.id hx)
      simp [ha, h0]
    · simp only [ha, beq_iff_eq, if_neg, not_false_iff, cond_false]
      simpa [ha] using ih h.2

theorem countInserting_setStatus_inserting (l : List Session) (now sid : Nat)
    (h0 : countInserting l = 0) :
    countInserting (l.map (setStatusRow now sid Status.inserting)) =
      (l.filter (fun r => r.id == sid)).length := by
  induction l with
  | nil => rfl
  | cons a t ih =>
    rw [countInserting_cons] at h0
    have ha : ¬ a.status = Status.inserting := by
      intro hc
      rw [if_pos hc] at h0
      omega
    have ht : countInserting t = 0 := by
      rw [if_neg ha] at h0
      omega
    rw [List.map_cons, countInserting_cons, List.filter_cons]
    by_cases hid : a.id = sid
    · simp [setStatusRow, hid, ih ht]
      omega
    · simp [setStatusRow, hid, ha, ih ht]

/-! ### Preservation of the machine-wide lock invariant -/

theorem insertingCount_of_indexOK {l : List Session} (h : indexOK l = true) :
    countInserting l ≤ 1 := of_decide_eq_true h

theorem countInserting_eq_zero_of_firstInserting_none {st : Store}
    (h : firstInserting st = none) : countInserting st.sessions = 0 :=
  countInserting_eq_zero_of_find?_none h

theorem lock_le_update_session_status {st : Store} (h : insertingCount st ≤ 1)
    (now sid : Nat) (x : Status) :
    insertingCount (update_session_status st now sid x) ≤ 1 := by
  unfold update_session_status
  dsimp only
  split
  · rename_i hok
    exact insertingCount_of_indexOK hok
  · exact h

theorem lock_le_acquire_upgrade {st : Store} (h : insertingCount st ≤ 1) (now sid : Nat) :
    insertingCount (acquire_upgrade st now sid).2 ≤ 1 := by
  unfold acquire_upgrade
  dsimp only
  split
  · rename_i hok
    exact insertingCount_of_indexOK hok
  · exact h

theorem lock_le_start_session {st : Store} (h : insertingCount st ≤ 1) (now sid : Nat) :
    insertingCount (start_session st now sid).2 ≤ 1 := by
  unfold start_session
  cases hs : get_session st sid with
  | none => exact h
  | some s =>
    refine le_trans (countInserting_map_le _ ?_ st.sessions) h
    intro r hr
    split at hr
    · simp at hr
    · exact hr

theorem lock_le_activate {st : Store} (h : insertingCount st ≤ 1) (now sid : Nat) :
    insertingCount (activate_session st now sid).2 ≤ 1 := by
  unfold activate_session
  cases hs : get_session st sid with
  | none => exact h
  | some s =>
    dsimp only
    split
    · exact h
    · exact lock_le_start_session h now sid

theorem lock_eq_update_session_credit (st : Store) (sid b sec e : Nat) :
    insertingCount (update_session_credit st sid b sec e) = insertingCount st :=
  countInserting_map_eq _ (fun r => by split <;> rfl) st.sessions

theorem lock_le_insert_bottle {st : Store} (h : insertingCount st ≤ 1)
    (now sid : Nat) (count : Int) :
    insertingCount (insert_bottle st now sid count).2 ≤ 1 := by
  unfold insert_bottle
  split
  · exact h
  · cases hs : get_session st sid with
    | none => exact h
    | some s =>
      dsimp only
      split
      · show insertingCount (log_bottles (update_session_credit st sid _ _ _) now sid _) ≤ 1
        rw [show ∀ st' now' sid' c', insertingCount (log_bottles st' now' sid' c') =
            insertingCount st' from fun _ _ _ _ => rfl]
        rw [lock_eq_update_session_credit]
        exact h
      · exact h

theorem lock_le_unlock {st : Store} (h : insertingCount st ≤ 1) (now : Nat) (mac ip : String) :
    insertingCount (unlock_insertion st now mac ip) ≤ 1 := by
  unfold unlock_insertion
  cases hs : get_session_for_device st mac ip [Status.inserting] with
  | none => exact h
  | some s =>
    dsimp only
    split
    · exact lock_le_update_session_status h now s.id Status.active
    · exact lock_le_update_session_status h now s.id Status.awaiting_insertion

theorem lock_le_create_session {st : Store} (h : insertingCount st ≤ 1)
    (now : Nat) (mac ip : Option String) (x : Status) :
    insertingCount (create_session st now mac ip x).2 ≤ 1 := by
  unfold create_session
  dsimp only
  split
  · rename_i hok
    exact insertingCount_of_indexOK hok
  · exact h

theorem lock_le_sweep_awaiting {st : Store} (h : insertingCount st ≤ 1) (now maxAge : Nat) :
    insertingCount (expire_stale_awaiting_sessions st now maxAge).2 ≤ 1 := by
  refine le_trans (countInserting_map_le _ ?_ st.sessions) h
  intro r hr
  dsimp only at hr
  split at hr
  · simp at hr
  · exact hr

theorem lock_le_sweep_inserting {st : Store} (h : insertingCount st ≤ 1) (now maxAge : Nat) :
    insertingCount (expire_stale_inserting_sessions st now maxAge).2 ≤ 1 := by
  refine le_trans (countInserting_map_le _ ?_ st.sessions) h
  intro r hr
  dsimp only at hr
  split at hr
  · simp at hr
  · exact hr

theorem lock_le_sweep_active {st : Store} (h : insertingCount st ≤ 1) (now : Nat) :
    insertingCount (expire_finished_active_sessions st now).2 ≤ 1 := by
  refine le_trans (countInserting_map_le _ ?_ st.sessions) h
  intro r hr
  dsimp only at hr
  split at hr
  · simp at hr
  · exact hr

theorem lock_le_add_bottle {st : Store} (h : insertingCount st ≤ 1) (now sid spb : Nat) :
    insertingCount (add_bottle_to_session st now sid spb) ≤ 1 := by
  refine le_trans (le_of_eq (countInserting_map_eq _ ?_ st.sessions)) h
  intro r
  dsimp only
  split <;> rfl

theorem lock_le_extend {st : Store} (h : insertingCount st ≤ 1) (now sid additional : Nat) :
    insertingCount (extend_session st now sid additional).2 ≤ 1 := by
  unfold extend_session
  cases hs : get_session st sid with
  | none => exact h
  | some s =>
    dsimp only
    split
    · cases he : s.session_end with
      | none => exact h
      | some e =>
        refine le_trans (le_of_eq (countInserting_map_eq _ ?_ st.sessions)) h
        intro r
        dsimp only
        split <;> rfl
    · exact h

theorem lock_le_acquire {st : Store} (h : insertingCount st ≤ 1)
    (now : Nat) (mac ip : Option String) :
    insertingCount (acquire_insertion_lock st now mac ip).2 ≤ 1 := by
  unfold acquire_insertion_lock
  cases hrow : deviceRow st mac ip with
  | some s =>
    dsimp only
    split
    · exact h
    · cases hex : firstInserting st with
      | some t =>
        dsimp only
        split
        · exact lock_le_acquire_upgrade h now s.id
        · exact h
      | none => exact lock_le_acquire_upgrade h now s.id
  | none =>
    cases hex : firstInserting st with
    | some t => exact h
    | none =>
      have h0 : countInserting st.sessions = 0 :=
        countInserting_eq_zero_of_firstInserting_none hex
      show countInserting (st.sessions ++ [newSessionRow st.next_id mac ip now]) ≤ 1
      rw [countInserting_append, h0, countInserting_cons, countInserting_nil]
      simp [newSessionRow]

/-- Claim C1: at every instant, at most one session system-wide has
`status = 'inserting'`.  For every reachable state of the session store —
i.e. after any interleaving of `acquire` calls (from arbitrary devices) with
every other transaction of the application — the number of rows with status
`inserting` is zero or one. -/
theorem inserting_mutual_exclusion {st : Store} (h : Reachable st) :
    insertingCount st ≤ 1 := by
  induction h with
  | empty => decide
  | acquire now mac ip h ih => exact lock_le_acquire ih now mac ip
  | credit now sid count h ih => exact lock_le_insert_bottle ih now sid count
  | activate now sid h ih => exact lock_le_activate ih now sid
  | setStatus now sid x h ih => exact lock_le_update_session_status ih now sid x
  | release now mac ip h ih => exact lock_le_unlock ih now mac ip
  | create now mac ip x h ih => exact lock_le_create_session ih now mac ip x
  | sweepAwaiting now maxAge h ih => exact lock_le_sweep_awaiting ih now maxAge
  | sweepInserting now maxAge h ih => exact lock_le_sweep_inserting ih now maxAge
  | sweepActive now h ih => exact lock_le_sweep_active ih now
  | addBottle now sid spb h ih => exact lock_le_add_bottle ih now sid spb
  | extend now sid additional h ih => exact lock_le_extend ih now sid additional

/-- Concrete instance of claim C1: after two devices both acquire on the
fresh store (the second acquire observes `Busy`), at most one row is
`inserting`. -/
theorem inserting_mutual_exclusion_witness :
    insertingCount
      (acquire_insertion_lock
        (acquire_insertion_lock Store.empty 100 (some "aa:bb:cc:dd:ee:01") none).2
        101 (some "aa:bb:cc:dd:ee:02") none).2 ≤ 1 :=
  inserting_mutual_exclusion
    (Reachable.acquire 101 (some "aa:bb:cc:dd:ee:02") none
      (Reachable.acquire 100 (some "aa:bb:cc:dd:ee:01") none Reachable.empty))

/-! ### Lookup after updates -/

theorem get_session_id {st : Store} {sid : Nat} {s : Session}
    (hs : get_session st sid = some s) : s.id = sid := by
  have h := List.find?_some hs
  simpa using h

theorem get_session_update_credit {st : Store} {sid : Nat} {s : Session}
    (hs : get_session st sid = some s) (b sec e : Nat) :
    get_session (update_session_credit st sid b sec e) sid =
      some { s with bottles_inserted := b, seconds_earned := sec, session_end := some e } := by
  unfold update_session_credit get_session
  dsimp only
  rw [find?_id_map _ (fun r => by split <;> rfl) st.sessions sid,
    show st.sessions.find? (fun r => r.id == sid) = some s from hs, Option.map_some']
  rw [if_pos (show (s.id == sid) = true by simp [get_session_id hs])]

theorem get_session_insert_bottle {st : Store} {sid : Nat} {s : Session} (now : Nat)
    {count : Int} (hs : get_session st sid = some s) (hc : ¬ count ≤ 0)
    (hst : (s.status == Status.inserting || s.status == Status.active) = true) :
    get_session (insert_bottle st now sid count).2 sid =
      some { s with bottles_inserted := s.bottles_inserted + count.toNat,
                    seconds_earned := s.seconds_earned + count.toNat * SECONDS_PER_BOTTLE,
                    session_end := some (credit_new_end s now count.toNat) } := by
  simp only [insert_bottle, if_neg hc, hs, if_pos hst]
  exact get_session_update_credit hs _ _ _

theorem get_session_start_session {st : Store} {sid : Nat} {s : Session}
    (hs : get_session st sid = some s) (now : Nat) :
    get_session (start_session st now sid).2 sid =
      some { s with status := Status.active, session_start := some now,
                    session_end := some (now + s.seconds_earned), updated_at := now } := by
  unfold start_session
  rw [hs]
  unfold get_session
  dsimp only
  rw [find?_id_map _ (fun r => by split <;> rfl) st.sessions sid,
    show st.sessions.find? (fun r => r.id == sid) = some s from hs, Option.map_some']
  rw [if_pos (show (s.id == sid) = true by simp [get_session_id hs])]

/-! ### Claim C10: the status-update primitive writes only status and
updated_at -/

/-- Claim C10: `update_session_status` — the primitive used by `release`
(both branches) and by forced expiry — writes only the `status` and
`updated_at` columns of the targeted session: for every session id and every
target status, `bottles_inserted`, `seconds_earned`, `session_start` and
`session_end` of every row are unchanged, non-targeted rows are untouched
entirely, and the other tables are unchanged.  Earned time therefore
survives lock release and expiry. -/
theorem update_session_status_frame (st : Store) (now sid : Nat) (x : Status) :
    (update_session_status st now sid x).bottle_logs = st.bottle_logs ∧
    (update_session_status st now sid x).next_id = st.next_id ∧
    List.Forall₂
      (fun r r' => r'.id = r.id ∧ r'.bottles_inserted = r.bottles_inserted ∧
        r'.seconds_earned = r.seconds_earned ∧ r'.session_start = r.session_start ∧
        r'.session_end = r.session_end ∧ (r.id ≠ sid → r' = r))
      st.sessions (update_session_status st now sid x).sessions := by
  simp only [update_session_status]
  split
  · refine ⟨rfl, rfl, ?_⟩
    rw [List.forall₂_map_right_iff, List.forall₂_same]
    intro r hr
    unfold setStatusRow
    split
    · rename_i hid
      simp only [beq_iff_eq] at hid
      exact ⟨rfl, rfl, rfl, rfl, rfl, fun hne => absurd hid hne⟩
    · exact ⟨rfl, rfl, rfl, rfl, rfl, fun _ => rfl⟩
  · refine ⟨rfl, rfl, ?_⟩
    rw [List.forall₂_same]
    intro r hr
    exact ⟨rfl, rfl, rfl, rfl, rfl, fun _ => rfl⟩

/-- Session used by the C10 witness store. -/
def sW10 : Session :=
  { id := 1, mac_address := some "aa:bb:cc:dd:ee:10", ip_address := some "10.0.0.10",
    bottles_inserted := 3, seconds_earned := 360, session_start := some 50,
    session_end := some 410, status := Status.inserting, created_at := 40,
    updated_at := 50 }

/-- Witness store for C10. -/
def stW10 : Store := { sessions := [sW10], bottle_logs := [], next_id := 2 }

/-- Concrete instance of C10: expiring the inserting session of `stW10`
leaves its counters and timing columns intact. -/
theorem update_session_status_frame_witness :
    List.Forall₂
      (fun r r' => r'.id = r.id ∧ r'.bottles_inserted = r.bottles_inserted ∧
        r'.seconds_earned = r.seconds_earned ∧ r'.session_start = r.session_start ∧
        r'.session_end = r.session_end ∧ (r.id ≠ 1 → r' = r))
      stW10.sessions (update_session_status stW10 60 1 Status.expired).sessions :=
  (update_session_status_frame stW10 60 1 Status.expired).2.2

/-! ### Claim C6: credit guard -/

/-- Claim C6: `credit(session_id, count)` is accepted exactly when the
session exists, `count ≥ 1` and the current status is `inserting` or
`active`; in particular crediting an `expired` session (with a valid count)
always fails with `InvalidState` and leaves the store — hence
`bottles_inserted`, `seconds_earned` and `session_end` — unchanged. -/
theorem credit_guard (st : Store) (now sid : Nat) (count : Int) :
    ((∃ r, (insert_bottle st now sid count).1 = CreditResult.ok r) ↔
      (1 ≤ count ∧ ∃ s, get_session st sid = some s ∧
        (s.status = Status.inserting ∨ s.status = Status.active))) ∧
    (∀ s, get_session st sid = some s → s.status = Status.expired → 1 ≤ count →
      (insert_bottle st now sid count).1 = CreditResult.error CreditError.invalidState ∧
      (insert_bottle st now sid count).2 = st) := by
  constructor
  · constructor
    · rintro ⟨r, hr⟩
      unfold insert_bottle at hr
      split at hr
      · cases hr
      · rename_i hc
        cases hs : get_session st sid with
        | none => rw [hs] at hr; cases hr
        | some s =>
          rw [hs] at hr
          dsimp only at hr
          split at hr
          · rename_i hst
            refine ⟨by omega, s, rfl, ?_⟩
            simpa using hst
          · cases hr
    · rintro ⟨hc, s, hs, hst⟩
      have hc' : ¬ count ≤ 0 := by omega
      have hb : (s.status == Status.inserting || s.status == Status.active) = true := by
        rcases hst with h | h <;> simp [h]
      refine ⟨{ session_id := sid,
                bottles_inserted := s.bottles_inserted + count.toNat,
                seconds_earned := s.seconds_earned + count.toNat * SECONDS_PER_BOTTLE,
                remaining_seconds := if now < credit_new_end s now count.toNat then
                  credit_new_end s now count.toNat - now else 0 }, ?_⟩
      simp only [insert_bottle, if_neg hc', hs, if_pos hb]
  · intro s hs hexp hc
    have hc' : ¬ count ≤ 0 := by omega
    have hb : ¬ (s.status == Status.inserting || s.status == Status.active) = true := by
      simp [hexp]
    constructor
    · simp only [insert_bottle, if_neg hc', hs, if_neg hb]
    · simp only [insert_bottle, if_neg hc', hs, if_neg hb]

/-- Expired session used by the C6 witness. -/
def sW6 : Session :=
  { id := 1, mac_address := some "aa:bb:cc:dd:ee:06", ip_address := none,
    bottles_inserted := 2, seconds_earned := 240, session_start := some 5,
    session_end := some 245, status := Status.expired, created_at := 1,
    updated_at := 250 }

/-- Witness store for C6. -/
def stW6 : Store := { sessions := [sW6], bottle_logs := [], next_id := 2 }

/-- Concrete instance of C6: crediting 3 bottles to the expired session fails
with `InvalidState` and mutates nothing. -/
theorem credit_guard_witness :
    (insert_bottle stW6 1000 1 3).1 = CreditResult.error CreditError.invalidState ∧
    (insert_bottle stW6 1000 1 3).2 = stW6 :=
  (credit_guard stW6 1000 1 3).2 sW6 (by decide) (by decide) (by decide)

/-! ### Claim C3: effect of a credit on session_end -/

/-- Active session whose `session_end = 100` lies far in the past at the
crediting time `now = 1000`. -/
def sLapsed : Session :=
  { id := 1, mac_address := some "aa:bb:cc:dd:ee:03", ip_address := none,
    bottles_inserted := 1, seconds_earned := 120, session_start := some 0,
    session_end := some 100, status := Status.active, created_at := 0,
    updated_at := 0 }

/-- Store holding only `sLapsed`. -/
def stLapsed : Store := { sessions := [sLapsed], bottle_logs := [], next_id := 2 }

/-- Inserting session with `session_end` still unset (NULL). -/
def sInsertingNoEnd : Session :=
  { id := 1, mac_address := some "aa:bb:cc:dd:ee:33", ip_address := none,
    bottles_inserted := 0, seconds_earned := 0, session_start := none,
    session_end := none, status := Status.inserting, created_at := 990,
    updated_at := 990 }

/-- Store holding only `sInsertingNoEnd`. -/
def stInsertingNoEnd : Store :=
  { sessions := [sInsertingNoEnd], bottle_logs := [], next_id := 2 }

/-- Claim C3 counterexample.  Crediting 1 bottle at `now = 1000` to the
active session whose `session_end = 100` has already passed produces
`session_end = 100 + 120 = 220`, not `now + 1 × 120 = 1120` as the claim
demands (`insert_bottle` always extends from the stored end, with no
`max(end, now)`).  Moreover crediting the `inserting` session whose
`session_end` is unset writes `session_end = now + 120` instead of leaving it
unset until activation. -/
theorem credit_lapsed_end_counterexample :
    (100 : Nat) < 1000 ∧
    (∃ s, get_session (insert_bottle stLapsed 1000 1 1).2 1 = some s ∧
      s.status = Status.active ∧ s.session_end = some 220 ∧
      s.session_end ≠ some (1000 + 1 * SECONDS_PER_BOTTLE)) ∧
    (∃ s, get_session (insert_bottle stInsertingNoEnd 1000 1 1).2 1 = some s ∧
      s.status = Status.inserting ∧ s.session_end = some (1000 + 1 * SECONDS_PER_BOTTLE)) := by
  decide

/-- Claim C3 (amended): on a successful credit of `count` bottles, if the
session's `session_end` is set and non-zero the new `session_end` is the old
value plus `count × seconds_per_bottle` — for an `active` session this holds
whether `session_end` is still in the future or has already passed (no reset
to `now`); if `session_end` is unset (or zero) the new value is
`now + count × seconds_per_bottle` — also while `inserting`, so `session_end`
is not left unset during insertion (it is nevertheless recomputed at
activation). -/
theorem credit_session_end_effect (st : Store) (now sid : Nat) (count : Int) (s : Session)
    (hs : get_session st sid = some s) (hc : 1 ≤ count)
    (hst : s.status = Status.inserting ∨ s.status = Status.active) :
    (∀ v, s.session_end = some v → v ≠ 0 →
      ∃ s', get_session (insert_bottle st now sid count).2 sid = some s' ∧
        s'.session_end = some (v + count.toNat * SECONDS_PER_BOTTLE)) ∧
    ((s.session_end = none ∨ s.session_end = some 0) →
      ∃ s', get_session (insert_bottle st now sid count).2 sid = some s' ∧
        s'.session_end = some (now + count.toNat * SECONDS_PER_BOTTLE)) := by
  have hc' : ¬ count ≤ 0 := by omega
  have hb : (s.status == Status.inserting || s.status == Status.active) = true := by
    rcases hst with h | h <;> simp [h]
  have hmain := get_session_insert_bottle now hs hc' hb
  constructor
  · intro v hv hv0
    refine ⟨_, hmain, ?_⟩
    show some (credit_new_end s now count.toNat) = _
    unfold credit_new_end
    rcases hst with h | h
    · rw [if_pos (by simp [h, hv, truthyEnd, hv0]), hv]
      simp [hv0]
    · rw [if_pos (by simp [h]), hv]
      simp [hv0]
  · intro hv
    refine ⟨_, hmain, ?_⟩
    show some (credit_new_end s now count.toNat) = _
    unfold credit_new_end
    rcases hv with hv | hv <;> rcases hst with h | h
    · rw [if_neg (by simp [h, hv, truthyEnd])]
    · rw [if_pos (by simp [h]), hv]
    · rw [if_neg (by simp [h, hv, truthyEnd])]
    · rw [if_pos (by simp [h]), hv]
      simp

/-- Active session still running (`session_end = 2000` in the future) used by
the C3 witness. -/
def sW3 : Session :=
  { id := 1, mac_address := some "aa:bb:cc:dd:ee:13", ip_address := none,
    bottles_inserted := 2, seconds_earned := 240, session_start := some 900,
    session_end := some 2000, status := Status.active, created_at := 880,
    updated_at := 900 }

/-- Witness store for C3. -/
def stW3 : Store := { sessions := [sW3], bottle_logs := [], next_id := 2 }

/-- Concrete instance of the amended C3: crediting 2 bottles to the running
active session extends its end from 2000 to 2000 + 240. -/
theorem credit_session_end_effect_witness :
    ∃ s', get_session (insert_bottle stW3 1000 1 2).2 1 = some s' ∧
      s'.session_end = some (2000 + (2 : Int).toNat * SECONDS_PER_BOTTLE) :=
  (credit_session_end_effect stW3 1000 1 2 sW3 (by decide) (by decide)
    (Or.inr (by decide))).1 2000 (by decide) (by decide)

/-! ### Claim C4: activation guard -/

/-- Expired session with bottles, used to refute the C4 rejection clause. -/
def sW4exp : Session :=
  { id := 1, mac_address := some "aa:bb:cc:dd:ee:04", ip_address := none,
    bottles_inserted := 2, seconds_earned := 240, session_start := some 10,
    session_end := some 250, status := Status.expired, created_at := 1,
    updated_at := 260 }

/-- Store holding only `sW4exp`. -/
def stW4exp : Store := { sessions := [sW4exp], bottle_logs := [], next_id := 2 }

/-- Claim C4 counterexample: `activate` on an already-`expired` session with
bottles is **not** rejected — it succeeds and resurrects the session as
`active` with a fresh `session_start = 1000` and
`session_end = 1000 + 240` (the route only guards `bottles_inserted = 0`;
the same happens for an already-`active` session). -/
theorem activate_expired_counterexample :
    (∃ s, get_session stW4exp 1 = some s ∧ s.status = Status.expired ∧
      0 < s.bottles_inserted) ∧
    (activate_session stW4exp 1000 1).1 = ActivateResult.ok ∧
    (∃ s, get_session (activate_session stW4exp 1000 1).2 1 = some s ∧
      s.status = Status.active ∧ s.session_start = some 1000 ∧
      s.session_end = some 1240) := by
  decide

/-- Claim C4 (amended): `activate` on a session with `bottles_inserted = 0`
fails with `InvalidState` and performs no mutation; whenever
`bottles_inserted > 0` — regardless of the current status, including
`active` and `expired`, which are not rejected — the call succeeds and sets
`session_start = now`, `session_end = now + seconds_earned` and
`status = 'active'`, so that `session_end - session_start = seconds_earned`. -/
theorem activate_guard (st : Store) (now sid : Nat) (s : Session)
    (hs : get_session st sid = some s) :
    (s.bottles_inserted = 0 →
      activate_session st now sid = (ActivateResult.invalidState, st)) ∧
    (0 < s.bottles_inserted →
      (activate_session st now sid).1 = ActivateResult.ok ∧
      get_session (activate_session st now sid).2 sid =
        some { s with status := Status.active, session_start := some now,
                      session_end := some (now + s.seconds_earned), updated_at := now } ∧
      (now + s.seconds_earned) - now = s.seconds_earned) := by
  constructor
  · intro h0
    unfold activate_session
    rw [hs]
    dsimp only
    rw [if_pos (by simp [h0])]
  · intro hpos
    have hb : ¬ (s.bottles_inserted == 0) = true := by
      simp
      omega
    refine ⟨?_, ?_, by omega⟩
    · unfold activate_session
      rw [hs]
      dsimp only
      rw [if_neg hb]
    · show get_session (activate_session st now sid).2 sid = _
      unfold activate_session
      rw [hs]
      dsimp only
      rw [if_neg hb]
      exact get_session_start_session hs now

/-- Inserting session with bottles used by the C4 witness. -/
def sW4 : Session :=
  { id := 1, mac_address := some "aa:bb:cc:dd:ee:14", ip_address := none,
    bottles_inserted := 3, seconds_earned := 360, session_start := none,
    session_end := none, status := Status.inserting, created_at := 90,
    updated_at := 95 }

/-- Witness store for C4. -/
def stW4 : Store := { sessions := [sW4], bottle_logs := [], next_id := 2 }

/-- Concrete instance of the amended C4: activating the 3-bottle session at
`now = 100` succeeds and sets `session_start = 100`,
`session_end = 100 + 360`. -/
theorem activate_guard_witness :
    (activate_session stW4 100 1).1 = ActivateResult.ok ∧
    get_session (activate_session stW4 100 1).2 1 =
      some { sW4 with status := Status.active, session_start := some 100,
                      session_end := some (100 + sW4.seconds_earned), updated_at := 100 } ∧
    (100 + sW4.seconds_earned) - 100 = sW4.seconds_earned :=
  (activate_guard stW4 100 1 sW4 (by decide)).2 (by decide)

/-! ### Claim C5: absorbing behaviour of the expired state -/

theorem get_session_map_of_fix {st : Store} {sid : Nat} {s : Session}
    (hs : get_session st sid = some s) (f : Session → Session)
    (hid : ∀ r, (f r).id = r.id) (hfix : f s = s) :
    get_session { st with sessions := st.sessions.map f } sid = some s := by
  unfold get_session
  dsimp only
  rw [find?_id_map f hid st.sessions sid,
    show st.sessions.find? (fun r => r.id == sid) = some s from hs, Option.map_some', hfix]

theorem get_session_for_device_mem {st : Store} {mac ip : String}
    {statuses : List Status} {t : Session}
    (h : get_session_for_device st mac ip statuses = some t) :
    t ∈ st.sessions ∧ statuses.contains t.status = true := by
  have hmem := newestByUpdated_mem h
  rw [List.mem_filter] at hmem
  refine ⟨hmem.1, ?_⟩
  have h2 := hmem.2
  rw [Bool.and_eq_true] at h2
  exact h2.2

/-- Expired session with bottles, used by the C5 counterexample. -/
def sC5 : Session :=
  { id := 1, mac_address := some "aa:bb:cc:dd:ee:05", ip_address := none,
    bottles_inserted := 3, seconds_earned := 360, session_start := some 10,
    session_end := some 370, status := Status.expired, created_at := 1,
    updated_at := 400 }

/-- Store holding only `sC5`. -/
def stC5 : Store := { sessions := [sC5], bottle_logs := [], next_id := 2 }

/-- Claim C5 counterexample: `expired` is not absorbing under the whole core.
The raw status-update endpoint (`update_status` → `db.update_session_status`)
moves the expired session straight back to `active`, and `activate` on the
expired session succeeds as well (resetting its timing columns). -/
theorem expired_mutable_counterexample :
    (∃ s, get_session stC5 1 = some s ∧ s.status = Status.expired) ∧
    (∃ s, get_session (update_session_status stC5 500 1 Status.active) 1 = some s ∧
      s.status = Status.active) ∧
    (activate_session stC5 600 1).1 = ActivateResult.ok := by
  decide

/-- Claim C5 (amended): `expired` is absorbing under `credit`, `release` and
all three sweep passes — none of them changes an expired session's
`bottles_inserted`, `seconds_earned` or `status` (credit fails and leaves the
whole store untouched; release and the sweeps leave the expired row
untouched).  It is **not** absorbing under `activate` or the raw
status-update endpoint, which can still mutate an expired session (see the
counterexample). -/
theorem expired_absorbing_core (st : Store) (sid : Nat) (s : Session)
    (hids : (st.sessions.map Session.id).Nodup)
    (hs : get_session st sid = some s) (hexp : s.status = Status.expired) :
    (∀ now count, (∀ r, (insert_bottle st now sid count).1 ≠ CreditResult.ok r) ∧
      (insert_bottle st now sid count).2 = st) ∧
    (∀ now mac ip, get_session (unlock_insertion st now mac ip) sid = some s) ∧
    (∀ now maxAge, get_session (expire_stale_awaiting_sessions st now maxAge).2 sid = some s) ∧
    (∀ now maxAge, get_session (expire_stale_inserting_sessions st now maxAge).2 sid = some s) ∧
    (∀ now, get_session (expire_finished_active_sessions st now).2 sid = some s) := by
  have hsid : s.id = sid := get_session_id hs
  have hsmem : s ∈ st.sessions := List.mem_of_find?_eq_some hs
  refine ⟨?_, ?_, ?_, ?_, ?_⟩
  · intro now count
    by_cases hc : count ≤ 0
    · exact ⟨fun r => by simp [insert_bottle, if_pos hc], by simp [insert_bottle, if_pos hc]⟩
    · exact ⟨fun r => by simp [insert_bottle, if_neg hc, hs, hexp],
        by simp [insert_bottle, if_neg hc, hs, hexp]⟩
  · intro now mac ip
    unfold unlock_insertion
    cases hdev : get_session_for_device st mac ip [Status.inserting] with
    | none => exact hs
    | some t =>
      have ht := get_session_for_device_mem hdev
      have htstatus : t.status = Status.inserting := by
        have := ht.2
        simp [List.contains] at this
        exact this
      have htid : ¬ t.id = sid := by
        intro hc
        have : t = s := mem_eq_of_nodup_ids hids ht.1 hsmem (by rw [hc, hsid])
        rw [this, hexp] at htstatus
        cases htstatus
      have hstep : ∀ x, get_session (update_session_status st now t.id x) sid = some s := by
        intro x
        unfold update_session_status
        dsimp only
        split
        · exact get_session_map_of_fix hs _
            (fun r => by unfold setStatusRow; split <;> rfl)
            (by unfold setStatusRow; rw [if_neg (by simp [hsid]; omega)])
        · exact hs
      dsimp only
      split
      · exact hstep Status.active
      · exact hstep Status.awaiting_insertion
  · intro now maxAge
    exact get_session_map_of_fix hs _ (fun r => by dsimp only; split <;> rfl)
      (by dsimp only; rw [if_neg (by simp [hexp])])
  · intro now maxAge
    exact get_session_map_of_fix hs _ (fun r => by dsimp only; split <;> rfl)
      (by dsimp only; rw [if_neg (by simp [hexp])])
  · intro now
    exact get_session_map_of_fix hs _ (fun r => by dsimp only; split <;> rfl)
      (by dsimp only; rw [if_neg (by simp [hexp])])

/-- Expired session used by the C5 witness. -/
def sW5 : Session :=
  { id := 1, mac_address := some "aa:bb:cc:dd:ee:15", ip_address := some "10.0.0.15",
    bottles_inserted := 4, seconds_earned := 480, session_start := some 100,
    session_end := some 580, status := Status.expired, created_at := 90,
    updated_at := 600 }

/-- Witness store for C5. -/
def stW5 : Store := { sessions := [sW5], bottle_logs := [], next_id := 2 }

/-- Concrete instance of the amended C5: a release call and the active-sweep
leave the expired session of `stW5` untouched. -/
theorem expired_absorbing_core_witness :
    get_session (unlock_insertion stW5 700 "aa:bb:cc:dd:ee:15" "10.0.0.15") 1 = some sW5 ∧
    get_session (expire_finished_active_sessions stW5 700).2 1 = some sW5 :=
  ⟨(expired_absorbing_core stW5 1 sW5 (by decide) (by decide) (by decide)).2.1
      700 "aa:bb:cc:dd:ee:15" "10.0.0.15",
   (expired_absorbing_core stW5 1 sW5 (by decide) (by decide) (by decide)).2.2.2.2 700⟩

/-! ### Claim C8: release -/

theorem get_session_setStatus {st : Store} {s : Session}
    (hids : (st.sessions.map Session.id).Nodup) (hmem : s ∈ st.sessions)
    (now : Nat) (x : Status) :
    get_session { st with sessions := st.sessions.map (setStatusRow now s.id x) } s.id =
      some { s with status := x, updated_at := now } := by
  unfold get_session
  dsimp only
  rw [find?_id_map _ (fun r => by unfold setStatusRow; split <;> rfl) st.sessions s.id,
    find?_id_of_mem hids hmem, Option.map_some']
  unfold setStatusRow
  rw [if_pos (by simp)]

/-- Claim C8: `release(device_key, origin_address)` (the unlock route) finds
the device's `inserting` session if any.  With `bottles_inserted > 0` it
transitions that session to `active` touching only `status` and
`updated_at` — in particular it does not set `session_start`/`session_end`;
with no bottles it transitions it back to `awaiting_insertion`, again with no
timing side effects; and when the device has no `inserting` session the call
is a silent success mutating nothing. -/
theorem release_case_analysis (st : Store) (now : Nat) (mac ip : String)
    (hids : (st.sessions.map Session.id).Nodup) (hlock : insertingCount st ≤ 1) :
    (get_session_for_device st mac ip [Status.inserting] = none →
      unlock_insertion st now mac ip = st) ∧
    (∀ s, get_session_for_device st mac ip [Status.inserting] = some s →
      0 < s.bottles_inserted →
      unlock_insertion st now mac ip =
        { st with sessions := st.sessions.map (setStatusRow now s.id Status.active) } ∧
      get_session (unlock_insertion st now mac ip) s.id =
        some { s with status := Status.active, updated_at := now }) ∧
    (∀ s, get_session_for_device st mac ip [Status.inserting] = some s →
      s.bottles_inserted = 0 →
      unlock_insertion st now mac ip =
        { st with sessions := st.sessions.map (setStatusRow now s.id Status.awaiting_insertion) } ∧
      get_session (unlock_insertion st now mac ip) s.id =
        some { s with status := Status.awaiting_insertion, updated_at := now }) := by
  have hok : ∀ sid x, ¬ x = Status.inserting →
      indexOK (st.sessions.map (setStatusRow now sid x)) = true := by
    intro sid x hx
    refine decide_eq_true (le_trans (countInserting_map_le _ ?_ st.sessions) hlock)
    intro r hr
    unfold setStatusRow at hr
    split at hr
    · exact absurd hr hx
    · exact hr
  refine ⟨?_, ?_, ?_⟩
  · intro hdev
    unfold unlock_insertion
    rw [hdev]
  · intro s hdev hpos
    have hmem := (get_session_for_device_mem hdev).1
    have heq : unlock_insertion st now mac ip =
        { st with sessions := st.sessions.map (setStatusRow now s.id Status.active) } := by
      unfold unlock_insertion
      rw [hdev]
      dsimp only
      rw [if_pos hpos]
      unfold update_session_status
      dsimp only
      rw [if_pos (hok s.id Status.active (by intro hc; cases hc))]
    exact ⟨heq, by rw [heq]; exact get_session_setStatus hids hmem now Status.active⟩
  · intro s hdev hzero
    have hmem := (get_session_for_device_mem hdev).1
    have heq : unlock_insertion st now mac ip =
        { st with sessions :=
            st.sessions.map (setStatusRow now s.id Status.awaiting_insertion) } := by
      unfold unlock_insertion
      rw [hdev]
      dsimp only
      rw [if_neg (by omega)]
      unfold update_session_status
      dsimp only
      rw [if_pos (hok s.id Status.awaiting_insertion (by intro hc; cases hc))]
    exact ⟨heq, by rw [heq]; exact get_session_setStatus hids hmem now Status.awaiting_insertion⟩

/-- Inserting session with bottles used by the C8 witness. -/
def sW8 : Session :=
  { id := 1, mac_address := some "aa:bb:cc:dd:ee:08", ip_address := some "10.0.0.8",
    bottles_inserted := 2, seconds_earned := 240, session_start := none,
    session_end := none, status := Status.inserting, created_at := 100,
    updated_at := 110 }

/-- Witness store for C8. -/
def stW8 : Store := { sessions := [sW8], bottle_logs := [], next_id := 2 }

/-- Concrete instance of C8: releasing with 2 bottles credited transitions
the session to `active`, leaving `session_start`/`session_end` unset. -/
theorem release_case_analysis_witness :
    get_session (unlock_insertion stW8 120 "aa:bb:cc:dd:ee:08" "10.0.0.8") 1 =
      some { sW8 with status := Status.active, updated_at := 120 } :=
  ((release_case_analysis stW8 120 "aa:bb:cc:dd:ee:08" "10.0.0.8" (by decide)
      (by decide)).2.1 sW8 (by decide) (by decide)).2

/-! ### Claim C9: audit log append vs. counter update -/

/-- Inserting session with no credit yet, used by the C9 counterexample. -/
def sC9 : Session :=
  { id := 1, mac_address := some "aa:bb:cc:dd:ee:09", ip_address := none,
    bottles_inserted := 0, seconds_earned := 0, session_start := none,
    session_end := none, status := Status.inserting, created_at := 50,
    updated_at := 50 }

/-- Store holding only `sC9`, with an empty audit log. -/
def stC9 : Store := { sessions := [sC9], bottle_logs := [], next_id := 2 }

/-- Claim C9 counterexample: the counter update and the `bottle_logs` append
do **not** commit atomically.  Crediting 1 bottle commits twice; the first
committed (durable) state already carries `bottles_inserted = 1`,
`seconds_earned = 120` while `bottle_logs` is still empty, and it differs
from the final state — so the counter effect is persisted without the audit
append. -/
theorem credit_commit_not_atomic_counterexample :
    ∃ mid, (insert_bottle_commits stC9 100 1 1).head? = some mid ∧
      (∃ s, get_session mid 1 = some s ∧ s.bottles_inserted = 1 ∧
        s.seconds_earned = 120) ∧
      mid.bottle_logs = [] ∧
      mid ≠ (insert_bottle stC9 100 1 1).2 := by
  decide

/-- Claim C9 (amended): every successful credit of `count` bottles appends
exactly one `bottle_logs` row carrying that count and updates the aggregate
counters, but in **two separate transactions**: the run commits exactly the
two states `[mid, final]`, where `mid` persists the updated counters with the
audit log still unchanged, and only the second commit appends the log row.
(The route returns 500 without appending when the counter update fails, so a
log row is never persisted without its counter update — the converse does not
hold.) -/
theorem credit_two_commit_structure (st : Store) (now sid : Nat) (count : Int) (s : Session)
    (hs : get_session st sid = some s) (hc : 1 ≤ count)
    (hst : s.status = Status.inserting ∨ s.status = Status.active) :
    ∃ mid,
      insert_bottle_commits st now sid count = [mid, (insert_bottle st now sid count).2] ∧
      mid.bottle_logs = st.bottle_logs ∧
      get_session mid sid =
        some { s with bottles_inserted := s.bottles_inserted + count.toNat,
                      seconds_earned := s.seconds_earned + count.toNat * SECONDS_PER_BOTTLE,
                      session_end := some (credit_new_end s now count.toNat) } ∧
      (insert_bottle st now sid count).2.bottle_logs =
        st.bottle_logs ++ [{ session_id := sid, count := count.toNat, created_at := now }] ∧
      get_session (insert_bottle st now sid count).2 sid =
        some { s with bottles_inserted := s.bottles_inserted + count.toNat,
                      seconds_earned := s.seconds_earned + count.toNat * SECONDS_PER_BOTTLE,
                      session_end := some (credit_new_end s now count.toNat) } := by
  have hc' : ¬ count ≤ 0 := by omega
  have hb : (s.status == Status.inserting || s.status == Status.active) = true := by
    rcases hst with h | h <;> simp [h]
  refine ⟨update_session_credit st sid (s.bottles_inserted + count.toNat)
      (s.seconds_earned + count.toNat * SECONDS_PER_BOTTLE) (credit_new_end s now count.toNat),
    ?_, rfl, get_session_update_credit hs _ _ _, ?_, get_session_insert_bottle now hs hc' hb⟩
  · simp only [insert_bottle_commits, insert_bottle, if_neg hc', hs, if_pos hb]
  · simp only [insert_bottle, if_neg hc', hs, if_pos hb]
    rfl

/-- Active session used by the C9 witness. -/
def sW9 : Session :=
  { id := 1, mac_address := some "aa:bb:cc:dd:ee:19", ip_address := none,
    bottles_inserted := 1, seconds_earned := 120, session_start := some 10,
    session_end := some 130, status := Status.active, created_at := 5,
    updated_at := 10 }

/-- Witness store for C9. -/
def stW9 : Store :=
  { sessions := [sW9],
    bottle_logs := [{ session_id := 1, count := 1, created_at := 10 }], next_id := 2 }

/-- Concrete instance of the amended C9: crediting 2 bottles to `stW9`
commits exactly two states and appends one log row with count 2. -/
theorem credit_two_commit_structure_witness :
    ∃ mid,
      insert_bottle_commits stW9 200 1 2 = [mid, (insert_bottle stW9 200 1 2).2] ∧
      mid.bottle_logs = stW9.bottle_logs ∧
      get_session mid 1 =
        some { sW9 with bottles_inserted := sW9.bottles_inserted + (2 : Int).toNat,
                        seconds_earned := sW9.seconds_earned + (2 : Int).toNat * SECONDS_PER_BOTTLE,
                        session_end := some (credit_new_end sW9 200 (2 : Int).toNat) } ∧
      (insert_bottle stW9 200 1 2).2.bottle_logs =
        stW9.bottle_logs ++ [{ session_id := 1, count := (2 : Int).toNat, created_at := 200 }] ∧
      get_session (insert_bottle stW9 200 1 2).2 1 =
        some { sW9 with bottles_inserted := sW9.bottles_inserted + (2 : Int).toNat,
                        seconds_earned := sW9.seconds_earned + (2 : Int).toNat * SECONDS_PER_BOTTLE,
                        session_end := some (credit_new_end sW9 200 (2 : Int).toNat) } :=
  credit_two_commit_structure stW9 200 1 2 sW9 (by decide) (by decide)
    (Or.inr (by decide))

/-! ### Claim C7: monotonic credit -/

/-- The credit-derivation property of a single row:
`seconds_earned = bottles_inserted × seconds_per_bottle`. -/
def sessionDerived (s : Session) : Prop :=
  s.seconds_earned = s.bottles_inserted * SECONDS_PER_BOTTLE

/-- The store-wide credit-derivation invariant. -/
def CounterInv (st : Store) : Prop := ∀ s ∈ st.sessions, sessionDerived s

theorem counterInv_map {l : List Session} (f : Session → Session)
    (hf : ∀ r, sessionDerived r → sessionDerived (f r))
    (h : ∀ s ∈ l, sessionDerived s) : ∀ s ∈ l.map f, sessionDerived s := by
  intro s hs
  rw [List.mem_map] at hs
  obtain ⟨a, ha, rfl⟩ := hs
  exact hf a (h a ha)

theorem counterInv_setStatus {st : Store} (h : CounterInv st) (now sid : Nat) (x : Status) :
    CounterInv (update_session_status st now sid x) := by
  unfold update_session_status
  dsimp only
  split
  · exact counterInv_map _ (fun r hr => by
      unfold setStatusRow
      split
      · exact hr
      · exact hr) h
  · exact h

theorem counterInv_start_session {st : Store} (h : CounterInv st) (now sid : Nat) :
    CounterInv (start_session st now sid).2 := by
  unfold start_session
  cases hs : get_session st sid with
  | none => exact h
  | some s =>
    exact counterInv_map _ (fun r hr => by
      split
      · exact hr
      · exact hr) h

theorem counterInv_activate {st : Store} (h : CounterInv st) (now sid : Nat) :
    CounterInv (activate_session st now sid).2 := by
  unfold activate_session
  cases hs : get_session st sid with
  | none => exact h
  | some s =>
    dsimp only
    split
    · exact h
    · exact counterInv_start_session h now sid

theorem counterInv_insert_bottle {st : Store} (h : CounterInv st)
    (now sid : Nat) (count : Int) :
    CounterInv (insert_bottle st now sid count).2 := by
  unfold insert_bottle
  split
  · exact h
  · cases hs : get_session st sid with
    | none => exact h
    | some s =>
      dsimp only
      split
      · have hsder : sessionDerived s := h s (List.mem_of_find?_eq_some hs)
        intro r hr
        refine counterInv_map _ (fun a ha => ?_) h r hr
        dsimp only
        split
        · show s.seconds_earned + count.toNat * SECONDS_PER_BOTTLE =
            (s.bottles_inserted + count.toNat) * SECONDS_PER_BOTTLE
          rw [Nat.add_mul, hsder]
        · exact ha
      · exact h

theorem counterInv_add_bottle {st : Store} (h : CounterInv st) (now sid : Nat) :
    CounterInv (add_bottle_to_session st now sid SECONDS_PER_BOTTLE) := by
  intro r hr
  refine counterInv_map _ (fun a ha => ?_) h r hr
  dsimp only
  split
  · show a.seconds_earned + SECONDS_PER_BOTTLE =
      (a.bottles_inserted + 1) * SECONDS_PER_BOTTLE
    rw [Nat.add_mul, Nat.one_mul, ha]
  · exact ha

theorem counterInv_append {st : Store} (h : CounterInv st) {s : Session}
    (hds : sessionDerived s) :
    ∀ r ∈ st.sessions ++ [s], sessionDerived r := by
  intro r hr
  rw [List.mem_append, List.mem_singleton] at hr
  rcases hr with hr | rfl
  · exact h r hr
  · exact hds

theorem counterInv_acquire {st : Store} (h : CounterInv st)
    (now : Nat) (mac ip : Option String) :
    CounterInv (acquire_insertion_lock st now mac ip).2 := by
  unfold acquire_insertion_lock
  cases hrow : deviceRow st mac ip with
  | some s =>
    dsimp only
    split
    · exact h
    · have hupg : CounterInv (acquire_upgrade st now s.id).2 := by
        unfold acquire_upgrade
        dsimp only
        split
        · exact counterInv_map _ (fun r hr => by
            unfold setStatusRow
            split
            · exact hr
            · exact hr) h
        · exact h
      cases hex : firstInserting st with
      | some t =>
        dsimp only
        split
        · exact hupg
        · exact h
      | none => exact hupg
  | none =>
    cases hex : firstInserting st with
    | some t => exact h
    | none =>
      exact counterInv_append h (by rfl)

theorem counterInv_create {st : Store} (h : CounterInv st)
    (now : Nat) (mac ip : Option String) (x : Status) :
    CounterInv (create_session st now mac ip x).2 := by
  unfold create_session
  dsimp only
  split
  · exact counterInv_append h (by rfl)
  · exact h

theorem counterInv_unlock {st : Store} (h : CounterInv st)
    (now : Nat) (mac ip : String) :
    CounterInv (unlock_insertion st now mac ip) := by
  unfold unlock_insertion
  cases hdev : get_session_for_device st mac ip [Status.inserting] with
  | none => exact h
  | some t =>
    dsimp only
    split
    · exact counterInv_setStatus h now t.id Status.active
    · exact counterInv_setStatus h now t.id Status.awaiting_insertion

theorem counterInv_sweep_awaiting {st : Store} (h : CounterInv st) (now maxAge : Nat) :
    CounterInv (expire_stale_awaiting_sessions st now maxAge).2 := by
  intro r hr
  refine counterInv_map _ (fun a ha => ?_) h r hr
  dsimp only
  split
  · exact ha
  · exact ha

theorem counterInv_sweep_inserting {st : Store} (h : CounterInv st) (now maxAge : Nat) :
    CounterInv (expire_stale_inserting_sessions st now maxAge).2 := by
  intro r hr
  refine counterInv_map _ (fun a ha => ?_) h r hr
  dsimp only
  split
  · exact ha
  · exact ha

theorem counterInv_sweep_active {st : Store} (h : CounterInv st) (now : Nat) :
    CounterInv (expire_finished_active_sessions st now).2 := by
  intro r hr
  refine counterInv_map _ (fun a ha => ?_) h r hr
  dsimp only
  split
  · exact ha
  · exact ha

theorem creditReachable_counterInv {st : Store} (h : CreditReachable st) :
    CounterInv st := by
  induction h with
  | empty => intro s hs; cases hs
  | acquire now mac ip h ih => exact counterInv_acquire ih now mac ip
  | credit now sid count h ih => exact counterInv_insert_bottle ih now sid count
  | activate now sid h ih => exact counterInv_activate ih now sid
  | setStatus now sid x h ih => exact counterInv_setStatus ih now sid x
  | release now mac ip h ih => exact counterInv_unlock ih now mac ip
  | create now mac ip x h ih => exact counterInv_create ih now mac ip x
  | sweepAwaiting now maxAge h ih => exact counterInv_sweep_awaiting ih now maxAge
  | sweepInserting now maxAge h ih => exact counterInv_sweep_inserting ih now maxAge
  | sweepActive now h ih => exact counterInv_sweep_active ih now
  | addBottle now sid h ih => exact counterInv_add_bottle ih now sid

theorem get_session_map_some {st st' : Store} {sid : Nat} {s : Session}
    (hs : get_session st sid = some s) (f : Session → Session)
    (hid : ∀ r, (f r).id = r.id)
    (hsess : st'.sessions = st.sessions.map f) :
    get_session st' sid = some (f s) := by
  unfold get_session
  rw [hsess, find?_id_map f hid st.sessions sid,
    show st.sessions.find? (fun r => r.id == sid) = some s from hs, Option.map_some']

/-- Store reached by acquiring, crediting one bottle, activating, and then
running the sensor-driven `extend_session` path for one more bottle's worth
of time (120 s). -/
def stX7 : Store :=
  (extend_session
    (activate_session
      (insert_bottle
        (acquire_insertion_lock Store.empty 10 (some "aa:bb:cc:dd:ee:07") none).2
        20 1 1).2
      30 1).2
    40 1 120).2

/-- Claim C7 counterexample: after one credited bottle the session holds
`seconds_earned = 120 = 1 × 120`, but the sensor-driven path
(`SessionManager.handle_bottle` → `db.extend_session`) then adds 120 more
seconds without incrementing `bottles_inserted`, leaving
`seconds_earned = 240 ≠ bottles_inserted × seconds_per_bottle`. -/
theorem sensor_extend_counterexample :
    ∃ s, get_session stX7 1 = some s ∧ s.bottles_inserted = 1 ∧
      s.seconds_earned = 240 ∧
      s.seconds_earned ≠ s.bottles_inserted * SECONDS_PER_BOTTLE := by
  decide

/-- Claim C7 (amended): in every store reachable without the legacy
sensor-driven `extend_session` path, every session satisfies
`seconds_earned = bottles_inserted × seconds_per_bottle` (so the equality
holds after any sequence of successful `credit` calls from creation); and
each of the three time-adding paths — `credit`, `add_bottle_to_session` and
`extend_session` — leaves both counters non-decreasing.  `extend_session`
itself, however, increases `seconds_earned` without `bottles_inserted`,
breaking the derivation equality (see the counterexample). -/
theorem monotonic_credit (st : Store) (h : CreditReachable st) :
    (∀ s ∈ st.sessions, s.seconds_earned = s.bottles_inserted * SECONDS_PER_BOTTLE) ∧
    (∀ now sid count s s', get_session st sid = some s →
      get_session (insert_bottle st now sid count).2 sid = some s' →
      s.bottles_inserted ≤ s'.bottles_inserted ∧ s.seconds_earned ≤ s'.seconds_earned) ∧
    (∀ now sid spb s s', get_session st sid = some s →
      get_session (add_bottle_to_session st now sid spb) sid = some s' →
      s.bottles_inserted ≤ s'.bottles_inserted ∧ s.seconds_earned ≤ s'.seconds_earned) ∧
    (∀ now sid additional s s', get_session st sid = some s →
      get_session (extend_session st now sid additional).2 sid = some s' →
      s.bottles_inserted ≤ s'.bottles_inserted ∧ s.seconds_earned ≤ s'.seconds_earned) := by
  refine ⟨creditReachable_counterInv h, ?_, ?_, ?_⟩
  · intro now sid count s s' hs hs'
    by_cases hc : count ≤ 0
    · rw [show (insert_bottle st now sid count).2 = st by
          simp [insert_bottle, if_pos hc], hs] at hs'
      cases hs'
      exact ⟨le_refl _, le_refl _⟩
    · by_cases hb : (s.status == Status.inserting || s.status == Status.active) = true
      · rw [get_session_insert_bottle now hs hc hb] at hs'
        cases hs'
        exact ⟨Nat.le_add_right _ _, Nat.le_add_right _ _⟩
      · rw [show (insert_bottle st now sid count).2 = st by
            simp only [insert_bottle, if_neg hc, hs, if_neg hb], hs] at hs'
        cases hs'
        exact ⟨le_refl _, le_refl _⟩
  · intro now sid spb s s' hs hs'
    rw [get_session_map_some hs _ (fun r => by split <;> rfl) rfl] at hs'
    cases hs'
    rw [if_pos (show (s.id == sid) = true by simp [get_session_id hs])]
    exact ⟨Nat.le_add_right _ _, Nat.le_add_right _ _⟩
  · intro now sid additional s s' hs hs'
    by_cases hst : (s.status == Status.active) = true
    · cases he : s.session_end with
      | none =>
        have heq : (extend_session st now sid additional).2 = st := by
          simp only [extend_session, hs, hst, he, if_true]
        rw [heq, hs] at hs'
        cases hs'
        exact ⟨le_refl _, le_refl _⟩
      | some e =>
        have heq : (extend_session st now sid additional).2 =
            { st with sessions := st.sessions.map (fun r =>
                if r.id == sid then
                  { r with session_end := some (e + additional),
                           seconds_earned := r.seconds_earned + additional,
                           updated_at := now } else r) } := by
          simp only [extend_session, hs, hst, he, if_true]
        rw [heq] at hs'
        rw [get_session_map_some hs _ (fun r => by split <;> rfl) rfl] at hs'
        cases hs'
        rw [if_pos (show (s.id == sid) = true by simp [get_session_id hs])]
        exact ⟨le_refl _, Nat.le_add_right _ _⟩
    · have heq : (extend_session st now sid additional).2 = st := by
        simp only [extend_session, hs]
        rw [if_neg hst]
      rw [heq, hs] at hs'
      cases hs'
      exact ⟨le_refl _, le_refl _⟩

/-- Store reached by acquiring with a fresh device and crediting 2 bottles
(no sensor extension), used by the C7 witness. -/
def stW7 : Store :=
  (insert_bottle
    (acquire_insertion_lock Store.empty 90 (some "aa:bb:cc:dd:ee:17") none).2
    100 1 2).2

/-- The session row held by `stW7`. -/
def sW7res : Session :=
  { id := 1, mac_address := some "aa:bb:cc:dd:ee:17", ip_address := none,
    bottles_inserted := 2, seconds_earned := 240, session_start := none,
    session_end := some 340, status := Status.inserting, created_at := 90,
    updated_at := 90 }

/-- Concrete instance of the amended C7: after acquire + credit of 2 bottles
the session satisfies `seconds_earned = bottles_inserted × 120`. -/
theorem monotonic_credit_witness :
    sW7res.seconds_earned = sW7res.bottles_inserted * SECONDS_PER_BOTTLE :=
  (monotonic_credit stW7
      (CreditReachable.credit 100 1 2
        (CreditReachable.acquire 90 (some "aa:bb:cc:dd:ee:17") none
          CreditReachable.empty))).1
    sW7res (by decide)

/-! ### Claim C2: the acquire case analysis -/

theorem deviceRow_mem {st : Store} {mac ip : Option String} {s : Session}
    (h : deviceRow st mac ip = some s) : s ∈ st.sessions := by
  have h1 := newestByCreated_mem h
  rw [List.mem_filter] at h1
  have h2 := h1.1
  rw [List.mem_filter] at h2
  exact h2.1

/-- Store in which device `"aa:bb:cc:dd:ee:02"` owns two non-terminal
sessions: session 1 (`awaiting_insertion`, created 10, updated 100) and
session 2 (`active`, created 20, updated 50).  Built from the empty store by
the application's own operations (captive-portal session creation and the
status-update endpoint). -/
def stC2 : Store :=
  update_session_status
    (update_session_status
      (create_session
        (update_session_status
          (create_session Store.empty 10 (some "aa:bb:cc:dd:ee:02") (some "10.0.0.2")
            Status.awaiting_insertion).2
          11 1 Status.expired)
        20 (some "aa:bb:cc:dd:ee:02") (some "10.0.0.2") Status.awaiting_insertion).2
      50 2 Status.active)
    100 1 Status.awaiting_insertion

/-- Claim C2 counterexample: in `stC2` no session holds `inserting`, and the
device owns session 1 (most recently **updated**, at 100) and session 2 (most
recently **created**, at 20).  The spec's case analysis — transition the most
recently updated `awaiting_insertion`/`active` session — returns id 1, but
`acquire_insertion_lock` orders by `created_at` and returns id 2. -/
theorem acquire_order_counterexample :
    acquire_spec stC2 (some "aa:bb:cc:dd:ee:02") (some "10.0.0.2") = some 1 ∧
    (acquire_insertion_lock stC2 200 (some "aa:bb:cc:dd:ee:02") (some "10.0.0.2")).1 =
      some 2 ∧
    (some 1 : Option Nat) ≠ some 2 := by
  decide

/-- Claim C2 (amended): `acquire` keys its case analysis on the device's most
recently **created** (not most recently updated) session among
{`awaiting_insertion`, `active`, `inserting`}, and the idempotent re-acquire
applies only when that particular session is the `inserting` one:
(1) that session is `inserting` — its id is returned, nothing mutated;
(2) it is `awaiting_insertion`/`active` and no other session holds
`inserting` — it is transitioned to `inserting` (only `status`/`updated_at`
written) and its id returned; (3) it is `awaiting_insertion`/`active` and
some other session holds `inserting` — `Busy` with no mutation; (4) the
device has no such session and some session holds `inserting` — `Busy` with
no mutation; (5) the device has no such session and none holds `inserting` —
a brand-new session is created directly in `inserting` status and its fresh
id returned.  Hypotheses: distinct row ids and the single-`inserting`
invariant, both true of every reachable store. -/
theorem acquire_case_analysis (st : Store) (now : Nat) (mac ip : Option String)
    (hids : (st.sessions.map Session.id).Nodup)
    (hlock : insertingCount st ≤ 1) :
    (∀ s, deviceRow st mac ip = some s → s.status = Status.inserting →
      acquire_insertion_lock st now mac ip = (some s.id, st)) ∧
    (∀ s, deviceRow st mac ip = some s → s.status ≠ Status.inserting →
      (∀ t ∈ st.sessions, t.status = Status.inserting → t.id = s.id) →
      acquire_insertion_lock st now mac ip =
        (some s.id,
         { st with sessions := st.sessions.map (setStatusRow now s.id Status.inserting) })) ∧
    (∀ s, deviceRow st mac ip = some s → s.status ≠ Status.inserting →
      (∃ t ∈ st.sessions, t.status = Status.inserting ∧ t.id ≠ s.id) →
      acquire_insertion_lock st now mac ip = (none, st)) ∧
    (deviceRow st mac ip = none → (∃ t ∈ st.sessions, t.status = Status.inserting) →
      acquire_insertion_lock st now mac ip = (none, st)) ∧
    (deviceRow st mac ip = none → (∀ t ∈ st.sessions, t.status ≠ Status.inserting) →
      acquire_insertion_lock st now mac ip =
        (some st.next_id,
         { st with sessions := st.sessions ++ [newSessionRow st.next_id mac ip now],
                   next_id := st.next_id + 1 })) := by
  refine ⟨?_, ?_, ?_, ?_, ?_⟩
  · intro s hdev hin
    unfold acquire_insertion_lock
    rw [hdev]
    dsimp only
    rw [if_pos (by simp [hin])]
  · intro s hdev hsnotin hno
    have hsmem : s ∈ st.sessions := deviceRow_mem hdev
    have hnone : firstInserting st = none := by
      cases hex : firstInserting st with
      | none => rfl
      | some t =>
        exfalso
        have htmem := List.mem_of_find?_eq_some hex
        have htin : t.status = Status.inserting := by simpa using List.find?_some hex
        have hts : t = s := mem_eq_of_nodup_ids hids htmem hsmem (hno t htmem htin)
        exact hsnotin (hts ▸ htin)
    have h0 : countInserting st.sessions = 0 :=
      countInserting_eq_zero_of_firstInserting_none hnone
    have hidx : indexOK (st.sessions.map (setStatusRow now s.id Status.inserting)) = true := by
      refine decide_eq_true ?_
      rw [countInserting_setStatus_inserting st.sessions now s.id h0]
      exact filter_id_length_le_one hids s.id
    unfold acquire_insertion_lock
    rw [hdev]
    dsimp only
    rw [if_neg (by simp [hsnotin]), hnone]
    unfold acquire_upgrade
    dsimp only
    rw [if_pos hidx]
  · intro s hdev hsnotin hother
    obtain ⟨t, htmem, htin, htne⟩ := hother
    cases hex : firstInserting st with
    | none =>
      exfalso
      unfold firstInserting at hex
      rw [List.find?_eq_none] at hex
      exact hex t htmem (by simp [htin])
    | some t' =>
      have ht'mem := List.mem_of_find?_eq_some hex
      have ht'in : t'.status = Status.inserting := by simpa using List.find?_some hex
      have ht't : t' = t := inserting_unique hlock ht'mem htmem ht'in htin
      unfold acquire_insertion_lock
      rw [hdev]
      dsimp only
      rw [if_neg (by simp [hsnotin]), hex]
      dsimp only
      rw [if_neg (by simp [ht't, htne])]
  · intro hdev hother
    obtain ⟨t, htmem, htin⟩ := hother
    cases hex : firstInserting st with
    | none =>
      exfalso
      unfold firstInserting at hex
      rw [List.find?_eq_none] at hex
      exact hex t htmem (by simp [htin])
    | some t' =>
      unfold acquire_insertion_lock
      rw [hdev, hex]
  · intro hdev hno
    have hnone : firstInserting st = none := by
      unfold firstInserting
      rw [List.find?_eq_none]
      intro t htmem
      simp [hno t htmem]
    unfold acquire_insertion_lock
    rw [hdev, hnone]

/-- Awaiting session used by the C2 witness. -/
def sW2 : Session :=
  { id := 1, mac_address := some "aa:bb:cc:dd:ee:12", ip_address := some "10.0.0.12",
    bottles_inserted := 0, seconds_earned := 0, session_start := none,
    session_end := none, status := Status.awaiting_insertion, created_at := 10,
    updated_at := 10 }

/-- Witness store for C2. -/
def stW2 : Store := { sessions := [sW2], bottle_logs := [], next_id := 2 }

/-- Concrete instance of the amended C2 (case 2): the device's only session
is `awaiting_insertion` and nothing holds the lock, so acquire transitions
it to `inserting` and returns its id. -/
theorem acquire_case_analysis_witness :
    acquire_insertion_lock stW2 30 (some "aa:bb:cc:dd:ee:12") none =
      (some sW2.id,
       { stW2 with sessions := stW2.sessions.map (setStatusRow 30 sW2.id Status.inserting) }) :=
  (acquire_case_analysis stW2 30 (some "aa:bb:cc:dd:ee:12") none (by decide)
      (by decide)).2.1 sW2 (by decide) (by decide) (by decide)

end WasteForWiFi
